import Mathlib

set_option maxRecDepth 8000

/-!
Verification development for the trace-based storage-slot locator in
`eth_contract/slots.py`.

The embedding models trace steps as already-normalized records: the opcode
mnemonic (the source resolves it via `log.get("opName") or log["op"]`), the
operand stack as decoded byte strings bottom-to-top (every stack access in the
source goes through `HexBytes(...)` or `int(..., 16)`, so a stack word is
represented by its byte string), the memory as a byte string (the source's
`get_memory` normalizes both hex-string and chunked forms), and the call
depth.  A step whose JSON record lacks the "stack" key is modelled with
`stack = none`.  Python exceptions (IndexError from `stack[-k]` on a short
stack, KeyError from `contracts[depth]`, ValueError / OverflowError from the
`MappingSlot` constructor) are modelled with `Except PyErr`.

`keccak` itself is external to the repository (`eth_utils.keccak`); the only
place the scanners would need it is never reached because the hash table is
keyed by the *next step's stack top*, not by a recomputed hash.  The one
function that calls it, `MappingSlot.value`, takes it as an explicit function
argument.
-/

namespace EthContract

/-- A byte string: list of byte values. -/
abbrev Bytes := List Nat

/-- Big-endian integer value of a byte string (`int(hexstr, 16)` on the hex
form of the bytes). -/
def bytesToNat (b : Bytes) : Nat :=
  b.foldl (fun a x => a * 256 + x) 0

/-- Python `b.rjust(32, b"\x00")`: left-pad with zero bytes to length 32
(unchanged if already at least 32 bytes). -/
def rjust32 (b : Bytes) : Bytes :=
  List.replicate (32 - b.length) 0 ++ b

/-- Python `b[-n:]`: the last `n` bytes (all of them if shorter). -/
def takeLast (n : Nat) (b : Bytes) : Bytes :=
  b.drop (b.length - n)

/-- Python negative indexing `l[-i]` for `i ≥ 1`: `some` of the `i`-th element
from the end when `i ≤ len(l)`, otherwise `none` (IndexError). -/
def pyGetNeg (l : List Bytes) (i : Nat) : Option Bytes :=
  if i ≤ l.length then l.get? (l.length - i) else none

/-- The Python exceptions the modelled code can raise. -/
inductive PyErr where
  | indexError
  | keyError
  | valueError
  | overflowError
deriving DecidableEq, Repr

/-- Association-list lookup mirroring Python `dict` lookup; insertion is
modelled by prepending, so the first hit is the most recent write. -/
def alLookup {α β : Type} [DecidableEq α] : List (α × β) → α → Option β
  | [], _ => none
  | (k, v) :: rest, k' => if k = k' then some v else alLookup rest k'

/-- One normalized trace step (see module docstring). -/
structure Step where
  op : String
  stack : Option (List Bytes) := none
  memory : Bytes := []
  depth : Nat := 1
deriving DecidableEq, Repr

/-- Single-level correlation tuple `(contract, v0, v1, slot)`. -/
abbrev Tuple4 := Bytes × Bytes × Bytes × Bytes

/-- Nested correlation tuple `(contract, v0, v1, v2, slot)`. -/
abbrev Tuple5 := Bytes × Bytes × Bytes × Bytes × Bytes

/-- The mutable state threaded through a scan: call-context stack
(`depth -> contract`), hash-preimage table, and the pending preimage buffer. -/
structure ScanState where
  contracts : List (Nat × Bytes)
  hashed : List (Bytes × (Bytes × Bytes))
  tmp : Option (Bytes × Bytes)
deriving DecidableEq, Repr

/-- `contracts = {1: top_contract}`, empty hash table, no pending preimage. -/
def initState (top : Bytes) : ScanState :=
  { contracts := [(1, top)], hashed := [], tmp := none }

/-- Drain the pending preimage: `hashed[HexBytes(stack[-1])] = tmp_pre_image;
tmp_pre_image = None` when a preimage is pending, else no-op. -/
def drainTmp (st : ScanState) (stack : List Bytes) : Except PyErr ScanState :=
  match st.tmp with
  | none => .ok st
  | some p =>
    match pyGetNeg stack 1 with
    | none => .error .indexError
    | some top => .ok { st with hashed := (top, p) :: st.hashed, tmp := none }

/-- The `KECCAK256` handler: `size, offset = int(stack[-2], 16),
int(stack[-1], 16)`; record the 64-byte preimage split into two words when
`size == 64`. -/
def keccakOp (st : ScanState) (s : Step) (stack : List Bytes) :
    Except PyErr ScanState :=
  match pyGetNeg stack 2, pyGetNeg stack 1 with
  | some szB, some offB =>
    if bytesToNat szB ≠ 64 then .ok st
    else
      let mem := (s.memory.drop (bytesToNat offB)).take 64
      .ok { st with tmp := some (mem.take 32, mem.drop 32) }
  | _, _ => .error .indexError

/-- The `CALL`/`STATICCALL` handler:
`contracts[depth + 1] = HexBytes(stack[-2])[-20:]`. -/
def callOp (st : ScanState) (s : Step) (stack : List Bytes) :
    Except PyErr ScanState :=
  match pyGetNeg stack 2 with
  | none => .error .indexError
  | some target =>
    .ok { st with contracts := (s.depth + 1, takeLast 20 target) :: st.contracts }

/-- The `DELEGATECALL` handler: `contracts[depth + 1] = contracts[depth]`. -/
def delegatecallOp (st : ScanState) (s : Step) : Except PyErr ScanState :=
  match alLookup st.contracts s.depth with
  | none => .error .keyError
  | some c => .ok { st with contracts := (s.depth + 1, c) :: st.contracts }

/-- The `SLOAD` handler of `parse_mapping_reads`: a hash-table hit on the slot
emits `(contracts[depth], v0, v1, slot)`; a miss emits nothing. -/
def sloadMapping (st : ScanState) (s : Step) (stack : List Bytes) :
    Except PyErr (Option Tuple4) :=
  match pyGetNeg stack 1 with
  | none => .error .indexError
  | some slot =>
    match alLookup st.hashed slot with
    | none => .ok none
    | some (v0, v1) =>
      match alLookup st.contracts s.depth with
      | none => .error .keyError
      | some c => .ok (some (c, v0, v1, slot))

/-- The `SLOAD` handler of `parse_nested_mapping_reads`: on a hit `(n0, n1)`,
first try `hashed[n0]` (then `v2 = n1`), on KeyError try `hashed[n1]`
(then `v2 = n0`), on KeyError emit nothing. -/
def sloadNested (st : ScanState) (s : Step) (stack : List Bytes) :
    Except PyErr (Option Tuple5) :=
  match pyGetNeg stack 1 with
  | none => .error .indexError
  | some slot =>
    match alLookup st.hashed slot with
    | none => .ok none
    | some (n0, n1) =>
      match alLookup st.hashed n0, alLookup st.hashed n1 with
      | some (v0, v1), _ =>
        match alLookup st.contracts s.depth with
        | none => .error .keyError
        | some c => .ok (some (c, v0, v1, n1, slot))
      | none, some (v0, v1) =>
        match alLookup st.contracts s.depth with
        | none => .error .keyError
        | some c => .ok (some (c, v0, v1, n0, slot))
      | none, none => .ok none

/-- One iteration of the scanner loop, parameterized by the `SLOAD` handler
(the two source scanners differ only there): skip steps without a stack,
drain the pending preimage, then dispatch on the opcode. -/
def scanStep {τ : Type} (sload : ScanState → Step → List Bytes → Except PyErr (Option τ))
    (st : ScanState) (s : Step) : Except PyErr (ScanState × Option τ) :=
  match s.stack with
  | none => .ok (st, none)
  | some stack =>
    match drainTmp st stack with
    | .error e => .error e
    | .ok st1 =>
      if s.op = "KECCAK256" then (keccakOp st1 s stack).map (fun st2 => (st2, none))
      else if s.op = "SLOAD" then (sload st1 s stack).map (fun o => (st1, o))
      else if s.op = "CALL" ∨ s.op = "STATICCALL" then
        (callOp st1 s stack).map (fun st2 => (st2, none))
      else if s.op = "DELEGATECALL" then
        (delegatecallOp st1 s).map (fun st2 => (st2, none))
      else .ok (st1, none)

/-- Run a scanner over a trace: the yielded tuples in order, together with the
exception (if any) that aborted the generator.  Tuples yielded before an
abort are kept; everything after is lost. -/
def runScan {τ : Type} (f : ScanState → Step → Except PyErr (ScanState × Option τ)) :
    List Step → ScanState → List τ × Option PyErr
  | [], _ => ([], none)
  | s :: rest, st =>
    match f st s with
    | .error e => ([], some e)
    | .ok (st', none) => runScan f rest st'
    | .ok (st', some t) =>
      let out := runScan f rest st'
      (t :: out.1, out.2)

/-- Run a scanner for its state only (used to observe intermediate states). -/
def runScanSt {τ : Type} (f : ScanState → Step → Except PyErr (ScanState × Option τ)) :
    List Step → ScanState → Except PyErr ScanState
  | [], st => .ok st
  | s :: rest, st =>
    match f st s with
    | .error e => .error e
    | .ok (st', _) => runScanSt f rest st'

/-- `parse_mapping_reads(top_contract, traces)`. -/
def parse_mapping_reads (top : Bytes) (traces : List Step) :
    List Tuple4 × Option PyErr :=
  runScan (scanStep sloadMapping) traces (initState top)

/-- `parse_nested_mapping_reads(top_contract, traces)`. -/
def parse_nested_mapping_reads (top : Bytes) (traces : List Step) :
    List Tuple5 × Option PyErr :=
  runScan (scanStep sloadNested) traces (initState top)

/-- A located or derived mapping slot. -/
structure MappingSlot where
  slot : Bytes
  is_solidity : Bool
deriving DecidableEq, Repr

/-- The argument of the `MappingSlot` constructor: `bytes | int`. -/
inductive SlotArg where
  | bytes (b : Bytes)
  | int (n : Int)
deriving DecidableEq, Repr

/-- `n.to_bytes(w, "big")` for `0 ≤ n < 256 ^ w`: big-endian byte string of
width `w`. -/
def natToBytesBE : Nat → Nat → Bytes
  | 0, _ => []
  | w + 1, n => natToBytesBE w (n / 256) ++ [n % 256]

/-- `MappingSlot.__init__`: an `int` is converted via `to_bytes(32, "big")`
(OverflowError when out of range), then the length-32 check raises ValueError
on failure. -/
def mkMappingSlot (a : SlotArg) (is_sol : Bool) : Except PyErr MappingSlot :=
  match a with
  | .int n =>
    if 0 ≤ n ∧ n < (2 : Int) ^ 256 then .ok ⟨natToBytesBE 32 n.toNat, is_sol⟩
    else .error .overflowError
  | .bytes b =>
    if b.length = 32 then .ok ⟨b, is_sol⟩ else .error .valueError

/-- `MappingSlot.value(key)`: derive the child slot for `key`, with the
external `keccak` passed explicitly. -/
def MappingSlot.value (keccak : Bytes → Bytes) (m : MappingSlot) (key : Bytes) :
    Except PyErr MappingSlot :=
  let v0 := rjust32 key
  let v1 := m.slot
  let slot := if m.is_solidity then keccak (v0 ++ v1) else keccak (v1 ++ v0)
  mkMappingSlot (.bytes slot) m.is_solidity

/-- The body of the `parse_balance_slot` loop over already-yielded tuples. -/
def balanceFromTuples (token u : Bytes) : List Tuple4 → Except PyErr (Option MappingSlot)
  | [] => .ok none
  | (c, v0, v1, _) :: rest =>
    if c ≠ token then balanceFromTuples token u rest
    else if v0 = u then (mkMappingSlot (.bytes v1) true).map some
    else if v1 = u then (mkMappingSlot (.bytes v0) false).map some
    else balanceFromTuples token u rest

/-- `parse_balance_slot(token, user, traces)`: lazily consume the scanner; a
match returns before any later generator exception; exhausting the generator
re-raises its exception if it had one. -/
def parse_balance_slot (token user : Bytes) (traces : List Step) :
    Except PyErr (Option MappingSlot) :=
  let out := parse_mapping_reads token traces
  match balanceFromTuples token (rjust32 user) out.1 with
  | .ok none =>
    match out.2 with
    | some e => .error e
    | none => .ok none
  | r => r

/-- The body of the `parse_allowance_slot` loop over already-yielded tuples. -/
def allowanceFromTuples (token u sp : Bytes) :
    List Tuple5 → Except PyErr (Option MappingSlot)
  | [] => .ok none
  | (c, v0, v1, v2, _) :: rest =>
    if c ≠ token then allowanceFromTuples token u sp rest
    else if v2 ≠ sp then allowanceFromTuples token u sp rest
    else if v0 = u then (mkMappingSlot (.bytes v1) true).map some
    else if v1 = u then (mkMappingSlot (.bytes v0) false).map some
    else allowanceFromTuples token u sp rest

/-- `parse_allowance_slot(token, user, spender, traces)`. -/
def parse_allowance_slot (token user spender : Bytes) (traces : List Step) :
    Except PyErr (Option MappingSlot) :=
  let out := parse_nested_mapping_reads token traces
  match allowanceFromTuples token (rjust32 user) (rjust32 spender) out.1 with
  | .ok none =>
    match out.2 with
    | some e => .error e
    | none => .ok none
  | r => r

/-- The loop of `parse_batch_balance_slot`; the result dict is an association
list written by prepending (most recent write first). -/
def batchBalanceFromTuples (tokens : List Bytes) (u : Bytes) :
    List Tuple4 → List (Bytes × MappingSlot) → Except PyErr (List (Bytes × MappingSlot))
  | [], acc => .ok acc
  | (c, v0, v1, _) :: rest, acc =>
    if c ∈ tokens then
      if v0 = u then
        match mkMappingSlot (.bytes v1) true with
        | .error e => .error e
        | .ok m => batchBalanceFromTuples tokens u rest ((c, m) :: acc)
      else if v1 = u then
        match mkMappingSlot (.bytes v0) false with
        | .error e => .error e
        | .ok m => batchBalanceFromTuples tokens u rest ((c, m) :: acc)
      else batchBalanceFromTuples tokens u rest acc
    else batchBalanceFromTuples tokens u rest acc

/-- `parse_batch_balance_slot(tokens, user, traces)`: full consumption of the
scanner under the all-zero placeholder top contract, so a generator exception
is always re-raised. -/
def parse_batch_balance_slot (tokens : List Bytes) (user : Bytes) (traces : List Step) :
    Except PyErr (List (Bytes × MappingSlot)) :=
  let top := List.replicate 20 0
  let out := parse_mapping_reads top traces
  match batchBalanceFromTuples tokens (rjust32 user) out.1 [] with
  | .error e => .error e
  | .ok r =>
    match out.2 with
    | some e => .error e
    | none => .ok r

/-- The loop of `parse_batch_allowance_slot`. -/
def batchAllowanceFromTuples (tokens : List Bytes) (u sp : Bytes) :
    List Tuple5 → List (Bytes × MappingSlot) → Except PyErr (List (Bytes × MappingSlot))
  | [], acc => .ok acc
  | (c, v0, v1, v2, _) :: rest, acc =>
    if c ∈ tokens then
      if v2 ≠ sp then batchAllowanceFromTuples tokens u sp rest acc
      else if v0 = u then
        match mkMappingSlot (.bytes v1) true with
        | .error e => .error e
        | .ok m => batchAllowanceFromTuples tokens u sp rest ((c, m) :: acc)
      else if v1 = u then
        match mkMappingSlot (.bytes v0) false with
        | .error e => .error e
        | .ok m => batchAllowanceFromTuples tokens u sp rest ((c, m) :: acc)
      else batchAllowanceFromTuples tokens u sp rest acc
    else batchAllowanceFromTuples tokens u sp rest acc

/-- `parse_batch_allowance_slot(tokens, user, spender, traces)`. -/
def parse_batch_allowance_slot (tokens : List Bytes) (user spender : Bytes)
    (traces : List Step) : Except PyErr (List (Bytes × MappingSlot)) :=
  let top := List.replicate 20 0
  let out := parse_nested_mapping_reads top traces
  match batchAllowanceFromTuples tokens (rjust32 user) (rjust32 spender) out.1 [] with
  | .error e => .error e
  | .ok r =>
    match out.2 with
    | some e => .error e
    | none => .ok r

/-! ### Concrete scenario data -/

/-- A 32-byte constant stand-in for the external keccak function. -/
def constKeccak : Bytes → Bytes := fun _ => List.replicate 32 0

/-- Top-level target of the C5 proxy trace. -/
def proxyTop : Bytes := List.replicate 20 1

/-- The proxy contract P of the C5 scenario. -/
def proxyP : Bytes := List.replicate 20 3

/-- The logic contract L of the C5 scenario. -/
def logicL : Bytes := List.replicate 20 4

/-- C5 scenario trace: `CALL` into P at depth 1, a 64-byte `KECCAK256` at
depth 2, a `DELEGATECALL` towards L at depth 2 (its stack top reveals the
pending hash), and an `SLOAD` at depth 3. -/
def delegateTrace : List Step :=
  [ { op := "CALL", stack := some [rjust32 proxyP, [0]], depth := 1 },
    { op := "KECCAK256", stack := some [[64], [0]],
      memory := rjust32 [170] ++ rjust32 [187], depth := 2 },
    { op := "DELEGATECALL", stack := some [rjust32 logicL, rjust32 [5]], depth := 2 },
    { op := "SLOAD", stack := some [rjust32 [5]], depth := 3 } ]

/-- Token contract of the C1 malformed-trace scenario. -/
def c1Token : Bytes := List.replicate 20 5

/-- A malformed step: a `KECCAK256` whose stack holds a single entry, so the
handler's `stack[-2]` read references an operand beyond the available stack. -/
def c1BadStep : Step := { op := "KECCAK256", stack := some [[64]], depth := 1 }

/-- Two well-formed steps producing one single-level tuple. -/
def c1GoodSteps : List Step :=
  [ { op := "KECCAK256", stack := some [[64], [0]],
      memory := rjust32 [1] ++ rjust32 [2], depth := 1 },
    { op := "SLOAD", stack := some [rjust32 [3]], depth := 1 } ]

/-- The malformed step followed by the well-formed remainder. -/
def c1Trace : List Step := c1BadStep :: c1GoodSteps

/-- Token contract of the C2 ambiguous-nested scenario. -/
def c2Token : Bytes := List.replicate 20 2

/-- Inner operand `n0` of the outer hash in the C2 scenario. -/
def c2n0 : Bytes := rjust32 [1]

/-- Inner operand `n1` of the outer hash in the C2 scenario. -/
def c2n1 : Bytes := rjust32 [2]

/-- The slot read by the `SLOAD` in the C2 scenario. -/
def c2slot : Bytes := rjust32 [3]

/-- Preimage words recorded for `c2n0`. -/
def c2a0 : Bytes := rjust32 [10]

/-- Preimage words recorded for `c2n0`. -/
def c2a1 : Bytes := rjust32 [11]

/-- Preimage words recorded for `c2n1`. -/
def c2b0 : Bytes := rjust32 [12]

/-- Preimage words recorded for `c2n1`. -/
def c2b1 : Bytes := rjust32 [13]

/-- C2 prefix: record preimages for `c2n0` and `c2n1`, then hash
`c2n0 ‖ c2n1`, leaving that preimage pending. -/
def c2TracePre : List Step :=
  [ { op := "KECCAK256", stack := some [[64], [0]], memory := c2a0 ++ c2a1, depth := 1 },
    { op := "POP", stack := some [c2n0], depth := 1 },
    { op := "KECCAK256", stack := some [[64], [0]], memory := c2b0 ++ c2b1, depth := 1 },
    { op := "POP", stack := some [c2n1], depth := 1 },
    { op := "KECCAK256", stack := some [[64], [0]], memory := c2n0 ++ c2n1, depth := 1 } ]

/-- C2 trace: the prefix followed by an `SLOAD` of a slot whose recorded
preimage pair `(c2n0, c2n1)` has BOTH components recorded as hash results. -/
def c2Trace : List Step :=
  c2TracePre ++ [ { op := "SLOAD", stack := some [c2slot], depth := 1 } ]

/-- A concrete scan state for the C2 amended-claim witness: the slot and both
of its preimage components are recorded hash results. -/
def c2WitState : ScanState :=
  { contracts := [(1, c2Token)],
    hashed := [(c2slot, (c2n0, c2n1)), (c2n0, (c2a0, c2a1)), (c2n1, (c2b0, c2b1))],
    tmp := none }

/-- The `SLOAD` step of the C2 amended-claim witness. -/
def c2WitStep : Step := { op := "SLOAD", stack := some [c2slot], depth := 1 }

/-- Token contract T of the C3 synthetic scenario. -/
def c3Token : Bytes := List.replicate 20 7

/-- The known user `0x00…01` (20 bytes) of the C3 synthetic scenario. -/
def c3User : Bytes := List.replicate 19 0 ++ [1]

/-- The hash value revealed by the trace in the C3 synthetic scenario. -/
def c3Hash : Bytes := rjust32 [171]

/-- C3 two-step trace: `KECCAK256` over `pad32(user) ‖ pad32(9)` at depth 1,
then `SLOAD` of the resulting hash. -/
def c3Trace : List Step :=
  [ { op := "KECCAK256", stack := some [[64], [0]],
      memory := rjust32 c3User ++ rjust32 [9], depth := 1 },
    { op := "SLOAD", stack := some [c3Hash], depth := 1 } ]

/-- Token contract of the C9 collision scenario. -/
def c9Token : Bytes := List.replicate 20 8

/-- The known user (20 bytes) of the C9 collision scenario. -/
def c9User : Bytes := List.replicate 19 0 ++ [4]

/-- The padded C9 user. -/
def c9U : Bytes := rjust32 c9User

/-- C9 trace: a `KECCAK256` over `pad32(user) ‖ pad32(user)` (probe key
collides with the slot index), then an `SLOAD` of the revealed hash. -/
def c9Trace : List Step :=
  [ { op := "KECCAK256", stack := some [[64], [0]], memory := c9U ++ c9U, depth := 1 },
    { op := "SLOAD", stack := some [rjust32 [6]], depth := 1 } ]

/-- Candidate contract A of the C7 batch scenario. -/
def c7A : Bytes := List.replicate 20 10

/-- Candidate contract B of the C7 batch scenario. -/
def c7B : Bytes := List.replicate 20 11

/-- Observed non-candidate contract of the C7 batch scenario. -/
def c7C : Bytes := List.replicate 20 12

/-- The known user (20 bytes) of the C7 batch scenario. -/
def c7User : Bytes := List.replicate 19 0 ++ [14]

/-- The padded C7 user. -/
def c7U : Bytes := rjust32 c7User

/-- C7 batch-balance trace: `CALL`s into A, B and C, each performing one
matching `SLOAD`. -/
def c7Trace : List Step :=
  [ { op := "CALL", stack := some [rjust32 c7A, [0]], depth := 1 },
    { op := "KECCAK256", stack := some [[64], [0]], memory := c7U ++ rjust32 [1], depth := 2 },
    { op := "SLOAD", stack := some [rjust32 [21]], depth := 2 },
    { op := "CALL", stack := some [rjust32 c7B, [0]], depth := 1 },
    { op := "KECCAK256", stack := some [[64], [0]], memory := c7U ++ rjust32 [2], depth := 2 },
    { op := "SLOAD", stack := some [rjust32 [22]], depth := 2 },
    { op := "CALL", stack := some [rjust32 c7C, [0]], depth := 1 },
    { op := "KECCAK256", stack := some [[64], [0]], memory := c7U ++ rjust32 [3], depth := 2 },
    { op := "SLOAD", stack := some [rjust32 [23]], depth := 2 } ]

/-- The known spender (20 bytes) of the C7 batch-allowance scenario. -/
def c7Spender : Bytes := List.replicate 19 0 ++ [15]

/-- The padded C7 spender. -/
def c7Sp : Bytes := rjust32 c7Spender

/-- One contract's worth of steps of the C7 batch-allowance trace: `CALL`
into `who`, inner hash of `user ‖ idx` revealed as `hIn`, outer hash of
`hIn ‖ spender` revealed by the `SLOAD` of `hOut`. -/
def c7NSteps (who idx hIn hOut : Bytes) : List Step :=
  [ { op := "CALL", stack := some [rjust32 who, [0]], depth := 1 },
    { op := "KECCAK256", stack := some [[64], [0]], memory := c7U ++ idx, depth := 2 },
    { op := "POP", stack := some [hIn], depth := 2 },
    { op := "KECCAK256", stack := some [[64], [0]], memory := hIn ++ c7Sp, depth := 2 },
    { op := "SLOAD", stack := some [hOut], depth := 2 } ]

/-- C7 batch-allowance trace over A, B and the non-candidate C. -/
def c7NTrace : List Step :=
  c7NSteps c7A (rjust32 [1]) (rjust32 [31]) (rjust32 [41]) ++
    c7NSteps c7B (rjust32 [2]) (rjust32 [32]) (rjust32 [42]) ++
    c7NSteps c7C (rjust32 [3]) (rjust32 [33]) (rjust32 [43])

/-- Reference definition following the spec's words for `locate_balance`
(§4.4): scan single-level tuples filtered to `contract == token`; the first
tuple where the padded known user equals `v0` or `v1` yields
`MappingSlot(index = other operand, is_solidity = (user matched v0))`;
no match gives "not found". -/
def locateBalanceSpec (token u : Bytes) : List Tuple4 → Option MappingSlot
  | [] => none
  | (c, v0, v1, _) :: rest =>
    if c = token ∧ (v0 = u ∨ v1 = u) then
      some ⟨if v0 = u then v1 else v0, if v0 = u then true else false⟩
    else locateBalanceSpec token u rest

/-- The filter selecting the single-level tuples that match a candidate set
and a padded probe key (used to state C7). -/
def batchMatches (tokens : List Bytes) (u : Bytes) (ts : List Tuple4) : List Tuple4 :=
  ts.filter fun t => decide (t.1 ∈ tokens) && (decide (t.2.1 = u) || decide (t.2.2.1 = u))

/-- The filter selecting the nested tuples that match a candidate set, a
padded spender and a padded probe key (used to state C7). -/
def batchMatchesA (tokens : List Bytes) (u sp : Bytes) (ts : List Tuple5) : List Tuple5 :=
  ts.filter fun t =>
    decide (t.1 ∈ tokens) && decide (t.2.2.2.1 = sp) &&
      (decide (t.2.1 = u) || decide (t.2.2.1 = u))

/-- Small-step execution relation of the single-level scanner over a trace:
one constructor per behaviour of a loop iteration (abort, skip, emit). -/
inductive ScanExec : ScanState → List Step → List Tuple4 × Option PyErr → Prop where
  | nil (st : ScanState) : ScanExec st [] ([], none)
  | err {st : ScanState} {s : Step} {rest : List Step} {e : PyErr}
      (h : scanStep sloadMapping st s = .error e) : ScanExec st (s :: rest) ([], some e)
  | skip {st st' : ScanState} {s : Step} {rest : List Step}
      {out : List Tuple4 × Option PyErr}
      (h : scanStep sloadMapping st s = .ok (st', none)) (hrest : ScanExec st' rest out) :
      ScanExec st (s :: rest) out
  | emit {st st' : ScanState} {s : Step} {rest : List Step} {t : Tuple4}
      {ts : List Tuple4} {e : Option PyErr}
      (h : scanStep sloadMapping st s = .ok (st', some t))
      (hrest : ScanExec st' rest (ts, e)) :
      ScanExec st (s :: rest) (t :: ts, e)

/-! ### Helper lemmas -/

theorem natToBytesBE_length (w n : Nat) : (natToBytesBE w n).length = w := by
  induction w generalizing n with
  | zero => rfl
  | succ w ih => simp [natToBytesBE, ih]

theorem bytesToNat_append_singleton (xs : Bytes) (b : Nat) :
    bytesToNat (xs ++ [b]) = bytesToNat xs * 256 + b := by
  simp [bytesToNat, List.foldl_append]

theorem bytesToNat_natToBytesBE (w n : Nat) :
    bytesToNat (natToBytesBE w n) = n % 256 ^ w := by
  induction w generalizing n with
  | zero => simp [natToBytesBE, bytesToNat, Nat.mod_one]
  | succ w ih =>
    rw [natToBytesBE, bytesToNat_append_singleton, ih, pow_succ,
      ← Nat.mod_mul_right_div_self, mul_comm (256 ^ w) 256]
    have h2 := Nat.mod_mod_of_dvd n (dvd_mul_right 256 (256 ^ w))
    have h3 := Nat.div_add_mod (n % (256 * 256 ^ w)) 256
    omega

theorem drainTmp_of_none {st : ScanState} (h : st.tmp = none) (stk : List Bytes) :
    drainTmp st stk = .ok st := by
  simp [drainTmp, h]

theorem drainTmp_of_some {st : ScanState} {p : Bytes × Bytes} (h : st.tmp = some p)
    {stk : List Bytes} {top : Bytes} (htop : pyGetNeg stk 1 = some top) :
    drainTmp st stk = .ok { st with hashed := (top, p) :: st.hashed, tmp := none } := by
  simp [drainTmp, h, htop]

theorem drainTmp_ok_tmp {st st' : ScanState} {stk : List Bytes}
    (h : drainTmp st stk = .ok st') : st'.tmp = none ∧ st'.contracts = st.contracts := by
  unfold drainTmp at h
  cases htmp : st.tmp with
  | none =>
    rw [htmp] at h
    cases h
    exact ⟨htmp, rfl⟩
  | some p =>
    rw [htmp] at h
    cases htop : pyGetNeg stk 1 with
    | none => rw [htop] at h; cases h
    | some top => rw [htop] at h; cases h; exact ⟨rfl, rfl⟩

/-! ### C10 -/

/-- C10: the `MappingSlot` constructor raises ValueError exactly when given a
byte string whose length is not 32; an in-range int is first converted to its
32-byte big-endian representation (whose big-endian value is the int itself);
consequently every successfully constructed `MappingSlot` has a 32-byte slot
field. -/
theorem C10_mkMappingSlot_spec (a : SlotArg) (sol : Bool) :
    (mkMappingSlot a sol = .error .valueError ↔ ∃ b, a = .bytes b ∧ b.length ≠ 32) ∧
    (∀ m, mkMappingSlot a sol = .ok m → m.slot.length = 32) ∧
    (∀ n : Int, 0 ≤ n → n < 2 ^ 256 →
      mkMappingSlot (.int n) sol = .ok ⟨natToBytesBE 32 n.toNat, sol⟩ ∧
      bytesToNat (natToBytesBE 32 n.toNat) = n.toNat) := by
  refine ⟨⟨?_, ?_⟩, ?_, ?_⟩
  · intro h
    cases a with
    | int n =>
      simp only [mkMappingSlot] at h
      split at h <;> cases h
    | bytes b =>
      by_cases hb : b.length = 32
      · simp only [mkMappingSlot] at h
        rw [if_pos hb] at h
        cases h
      · exact ⟨b, rfl, hb⟩
  · rintro ⟨b, rfl, hb⟩
    simp only [mkMappingSlot]
    rw [if_neg hb]
  · intro m hm
    cases a with
    | int n =>
      simp only [mkMappingSlot] at hm
      split at hm
      · injection hm with h
        rw [← h]
        exact natToBytesBE_length 32 n.toNat
      · cases hm
    | bytes b =>
      simp only [mkMappingSlot] at hm
      split at hm
      · injection hm with h
        rw [← h]
        exact ‹b.length = 32›
      · cases hm
  · intro n h0 h256
    constructor
    · simp only [mkMappingSlot]
      rw [if_pos ⟨h0, h256⟩]
    · rw [bytesToNat_natToBytesBE]
      apply Nat.mod_eq_of_lt
      have hp : (256 : Nat) ^ 32 = 2 ^ 256 := by norm_num
      have h256' : n < ((2 ^ 256 : Nat) : Int) := by exact_mod_cast h256
      rw [hp]
      omega

/-- Witness for C10 at concrete inputs. -/
theorem C10_mkMappingSlot_spec_witness :
    mkMappingSlot (.bytes (List.replicate 31 0)) true = .error .valueError ∧
    mkMappingSlot (.int 5) true = .ok ⟨natToBytesBE 32 (Int.toNat 5), true⟩ ∧
    bytesToNat (natToBytesBE 32 (Int.toNat 5)) = Int.toNat 5 := by
  refine ⟨?_, ?_, ?_⟩
  · exact (C10_mkMappingSlot_spec (.bytes (List.replicate 31 0)) true).1.mpr
      ⟨List.replicate 31 0, rfl, by decide⟩
  · exact ((C10_mkMappingSlot_spec (.int 5) true).2.2 5 (by decide) (by norm_num)).1
  · exact ((C10_mkMappingSlot_spec (.int 5) true).2.2 5 (by decide) (by norm_num)).2

/-! ### C4 -/

/-- C4: for every 32-byte index and every key,
`MappingSlot(index, is_solidity=true).value(key)` has base
`keccak(pad32(key) ++ index)` and `MappingSlot(index, is_solidity=false).value(key)`
has base `keccak(index ++ pad32(key))`; the derived slot keeps the same
`is_solidity` flag, so derivation is chainable. -/
theorem C4_value_slot (keccak : Bytes → Bytes) (index key : Bytes) (sol : Bool)
    (hidx : index.length = 32) (hk : ∀ b, (keccak b).length = 32) :
    MappingSlot.value keccak ⟨index, sol⟩ key =
      .ok ⟨if sol then keccak (rjust32 key ++ index) else keccak (index ++ rjust32 key),
        sol⟩ := by
  cases sol <;> simp [MappingSlot.value, mkMappingSlot, hk]

/-- Witness for C4 at concrete inputs. -/
theorem C4_value_slot_witness :
    MappingSlot.value constKeccak ⟨rjust32 [1], true⟩ [2] =
      .ok ⟨List.replicate 32 0, true⟩ := by
  have h := C4_value_slot constKeccak (rjust32 [1]) [2] true (by decide) (fun _ => rfl)
  simpa [constKeccak] using h

/-! ### C5 -/

/-- C5: `DELEGATECALL` copies the current depth's contract to depth+1, so an
`SLOAD` at depth 3 after `CALL` into proxy P and `DELEGATECALL` into logic L
is attributed to P, not L. -/
theorem C5_delegatecall_attribution :
    (∀ (st : ScanState) (s : Step) (stk : List Bytes) (c : Bytes),
      s.op = "DELEGATECALL" → s.stack = some stk → st.tmp = none →
      alLookup st.contracts s.depth = some c →
      scanStep sloadMapping st s =
        .ok ({ st with contracts := (s.depth + 1, c) :: st.contracts }, none)) ∧
    parse_mapping_reads proxyTop delegateTrace =
      ([(proxyP, rjust32 [170], rjust32 [187], rjust32 [5])], none) ∧
    proxyP ≠ logicL := by
  refine ⟨?_, by decide, by decide⟩
  intro st s stk c hop hstk htmp hc
  obtain ⟨op, stack?, mem, d⟩ := s
  simp only at hop hstk hc
  subst hop hstk
  simp only [scanStep, drainTmp_of_none htmp]
  simp [delegatecallOp, hc, Except.map]

/-- Witness for C5's general conjunct at a concrete state and step. -/
theorem C5_delegatecall_attribution_witness :
    scanStep sloadMapping (initState proxyTop)
        { op := "DELEGATECALL", stack := some [[7]], depth := 1 } =
      .ok ({ initState proxyTop with
        contracts := (2, proxyTop) :: (initState proxyTop).contracts }, none) :=
  C5_delegatecall_attribution.1 (initState proxyTop)
    { op := "DELEGATECALL", stack := some [[7]], depth := 1 } [[7]] proxyTop
    rfl rfl rfl (by decide)

/-! ### C6 -/

/-- C6: for any step processed while a preimage is pending, the scanner first
records `stack-top ↦ pending pair` in the hash table and clears the pending
buffer, and only then processes the step (processing from the pre-drained
state is identical); and after a successful step the pending buffer is
non-empty only if it survived an entirely skipped stackless step, or the step
is a `KECCAK256` hashing exactly 64 bytes.  Stated for `scanStep` with an
arbitrary `SLOAD` handler, hence for both scanners. -/
theorem C6_pending_drain_first :
    (∀ (τ : Type) (sload : ScanState → Step → List Bytes → Except PyErr (Option τ))
      (st : ScanState) (s : Step) (stk : List Bytes) (p : Bytes × Bytes) (top : Bytes),
      st.tmp = some p → s.stack = some stk → pyGetNeg stk 1 = some top →
      scanStep sload st s =
        scanStep sload { st with hashed := (top, p) :: st.hashed, tmp := none } s) ∧
    (∀ (τ : Type) (sload : ScanState → Step → List Bytes → Except PyErr (Option τ))
      (st : ScanState) (s : Step) (st' : ScanState) (o : Option τ) (p : Bytes × Bytes),
      scanStep sload st s = .ok (st', o) → st'.tmp = some p →
      (s.stack = none ∧ st.tmp = some p) ∨
      (s.op = "KECCAK256" ∧ ∃ stk szB, s.stack = some stk ∧
        pyGetNeg stk 2 = some szB ∧ bytesToNat szB = 64)) := by
  constructor
  · intro τ sload st s stk p top htmp hstk hget
    obtain ⟨op, stack?, mem, d⟩ := s
    simp only at hstk
    subst hstk
    have h2 : drainTmp { st with hashed := (top, p) :: st.hashed, tmp := none } stk =
        .ok { st with hashed := (top, p) :: st.hashed, tmp := none } :=
      drainTmp_of_none rfl stk
    simp only [scanStep, drainTmp_of_some htmp hget, h2]
  · intro τ sload st s st' o p hrun htmp'
    obtain ⟨op, stack?, mem, d⟩ := s
    cases stack? with
    | none =>
      simp only [scanStep] at hrun
      cases hrun
      exact Or.inl ⟨rfl, htmp'⟩
    | some stk =>
      simp only [scanStep] at hrun
      split at hrun
      · cases hrun
      case _ st1 hdr =>
        have h1 : st1.tmp = none := (drainTmp_ok_tmp hdr).1
        split at hrun
        case isTrue hkec =>
          refine Or.inr ⟨hkec, ?_⟩
          simp only [keccakOp] at hrun
          split at hrun
          case _ szB offB hg2 hg1 =>
            split at hrun
            case isTrue hsz =>
              simp only [Except.map] at hrun
              cases hrun
              rw [h1] at htmp'
              cases htmp'
            case isFalse hsz =>
              exact ⟨stk, szB, rfl, hg2, by omega⟩
          case _ hg =>
            cases hrun
        case isFalse hkec =>
          split at hrun
          case isTrue hsl =>
            cases hres : sload st1 ⟨op, some stk, mem, d⟩ stk with
            | error e => rw [hres] at hrun; cases hrun
            | ok o' =>
              rw [hres] at hrun
              simp only [Except.map] at hrun
              cases hrun
              rw [h1] at htmp'
              cases htmp'
          case isFalse hsl =>
            split at hrun
            case isTrue hcall =>
              simp only [callOp] at hrun
              split at hrun
              · cases hrun
              case _ tgt hg =>
                simp only [Except.map] at hrun
                cases hrun
                simp only at htmp'
                rw [h1] at htmp'
                cases htmp'
            case isFalse hcall =>
              split at hrun
              case isTrue hdc =>
                simp only [delegatecallOp] at hrun
                split at hrun
                · cases hrun
                case _ c hg =>
                  simp only [Except.map] at hrun
                  cases hrun
                  simp only at htmp'
                  rw [h1] at htmp'
                  cases htmp'
              case isFalse hdc =>
                cases hrun
                rw [h1] at htmp'
                cases htmp'

/-- Witness for C6's drain-first conjunct at a concrete state and step. -/
theorem C6_pending_drain_first_witness :
    scanStep sloadMapping
        { contracts := [(1, List.replicate 20 1)], hashed := [],
          tmp := some (rjust32 [7], rjust32 [8]) }
        { op := "SLOAD", stack := some [rjust32 [9]], depth := 1 } =
      scanStep sloadMapping
        { contracts := [(1, List.replicate 20 1)],
          hashed := [(rjust32 [9], (rjust32 [7], rjust32 [8]))], tmp := none }
        { op := "SLOAD", stack := some [rjust32 [9]], depth := 1 } :=
  C6_pending_drain_first.1 Tuple4 sloadMapping
    { contracts := [(1, List.replicate 20 1)], hashed := [],
      tmp := some (rjust32 [7], rjust32 [8]) }
    { op := "SLOAD", stack := some [rjust32 [9]], depth := 1 }
    [rjust32 [9]] (rjust32 [7], rjust32 [8]) (rjust32 [9]) rfl rfl (by decide)

/-! ### C1 -/

theorem scanStep_no_stack {τ : Type}
    (sload : ScanState → Step → List Bytes → Except PyErr (Option τ))
    (st : ScanState) (s : Step) (h : s.stack = none) :
    scanStep sload st s = .ok (st, none) := by
  obtain ⟨op, stack?, mem, d⟩ := s
  simp only at h
  subst h
  rfl

theorem runScan_skip_step {τ : Type}
    (f : ScanState → Step → Except PyErr (ScanState × Option τ)) (s : Step)
    (post : List Step) (hf : ∀ st, f st s = .ok (st, none)) :
    ∀ (pre : List Step) (st : ScanState),
      runScan f (pre ++ s :: post) st = runScan f (pre ++ post) st := by
  intro pre
  induction pre with
  | nil =>
    intro st
    simp only [List.nil_append, runScan, hf st]
  | cons q pre ih =>
    intro st
    cases hq : f st q with
    | error e => simp only [List.cons_append, runScan, hq]
    | ok pr =>
      obtain ⟨st', o⟩ := pr
      cases o with
      | none =>
        simp only [List.cons_append, runScan, hq]
        exact ih st'
      | some t =>
        simp only [List.cons_append, runScan, hq, List.append_eq]
        rw [ih st']

/-- C1 counterexample: on a trace whose first step is a `KECCAK256` with a
single-entry stack, the single-level scan aborts with IndexError and yields no
tuples, instead of skipping the malformed step and producing the tuple of the
remaining well-formed steps. -/
theorem C1_counterexample :
    parse_mapping_reads c1Token c1Trace = ([], some .indexError) ∧
    parse_mapping_reads c1Token c1GoodSteps =
      ([(c1Token, rjust32 [1], rjust32 [2], rjust32 [3])], none) ∧
    (parse_mapping_reads c1Token c1Trace).1 ≠
      (parse_mapping_reads c1Token c1GoodSteps).1 :=
  ⟨by decide, by decide, by decide⟩

/-- C1 (amended): a step that lacks the stack field entirely is skipped and
the scan continues, producing the tuples of the remaining steps; but a step
whose stack is present with fewer entries than the opcode's handler reads
(here: a `KECCAK256` with less than two stack entries) makes the scan raise
IndexError, so the tuples of the remaining steps are not produced. -/
theorem C1_amended_skip_or_abort :
    (∀ (top : Bytes) (pre post : List Step) (s : Step), s.stack = none →
      parse_mapping_reads top (pre ++ s :: post) = parse_mapping_reads top (pre ++ post)) ∧
    (∀ (st : ScanState) (s : Step) (stk : List Bytes) (rest : List Step),
      s.op = "KECCAK256" → s.stack = some stk → stk.length < 2 → st.tmp = none →
      runScan (scanStep sloadMapping) (s :: rest) st = ([], some .indexError)) := by
  constructor
  · intro top pre post s h
    exact runScan_skip_step _ s post (fun st => scanStep_no_stack _ st s h) pre
      (initState top)
  · intro st s stk rest hop hstk hlen htmp
    obtain ⟨op, stack?, mem, d⟩ := s
    simp only at hop hstk
    subst hop hstk
    have h2 : pyGetNeg stk 2 = none := by
      simp only [pyGetNeg, ite_eq_right_iff]
      omega
    cases hg1 : pyGetNeg stk 1 <;>
      simp only [runScan, scanStep, drainTmp_of_none htmp, keccakOp, h2, hg1,
        if_pos rfl] <;> rfl

/-- Witness for C1's amended claim at concrete traces. -/
theorem C1_amended_skip_or_abort_witness :
    parse_mapping_reads c1Token ({ op := "POP" } :: c1GoodSteps) =
      parse_mapping_reads c1Token c1GoodSteps ∧
    runScan (scanStep sloadMapping) (c1BadStep :: c1GoodSteps) (initState c1Token) =
      ([], some .indexError) :=
  ⟨C1_amended_skip_or_abort.1 c1Token [] c1GoodSteps { op := "POP" } rfl,
   C1_amended_skip_or_abort.2 (initState c1Token) c1BadStep [[64]] c1GoodSteps
     rfl rfl (by decide) rfl⟩

/-! ### C2 -/

/-- C2 counterexample: after the prefix both `c2n0` and `c2n1` are recorded
hash results and the outer pair `(c2n0, c2n1)` is pending; the subsequent
`SLOAD` nevertheless emits a tuple (using `n0`'s resolution), refuting the
claim that nothing is emitted when both operands resolve. -/
theorem C2_counterexample :
    (runScanSt (scanStep sloadNested) c2TracePre (initState c2Token)).map
        (fun st => (alLookup st.hashed c2n0, alLookup st.hashed c2n1, st.tmp)) =
      .ok (some (c2a0, c2a1), some (c2b0, c2b1), some (c2n0, c2n1)) ∧
    parse_nested_mapping_reads c2Token c2Trace =
      ([(c2Token, c2a0, c2a1, c2n1, c2slot)], none) ∧
    (parse_nested_mapping_reads c2Token c2Trace).1 ≠ [] :=
  ⟨rfl, rfl, List.cons_ne_nil _ _⟩

/-- C2 (amended): when an `SLOAD`'s slot resolves to `(n0, n1)`, the nested
scanner emits using `n0`'s resolution whenever `hashed[n0]` hits — even if
`n1` also resolves; only if `n0` misses does it try `n1`; it emits nothing
exactly when neither resolves. -/
theorem C2_amended_nested_sload :
    ∀ (st : ScanState) (s : Step) (stk : List Bytes) (slot n0 n1 c : Bytes),
      s.op = "SLOAD" → s.stack = some stk → st.tmp = none →
      pyGetNeg stk 1 = some slot →
      alLookup st.hashed slot = some (n0, n1) →
      alLookup st.contracts s.depth = some c →
      scanStep sloadNested st s = .ok (st,
        match alLookup st.hashed n0, alLookup st.hashed n1 with
        | some (v0, v1), _ => some (c, v0, v1, n1, slot)
        | none, some (v0, v1) => some (c, v0, v1, n0, slot)
        | none, none => none) := by
  intro st s stk slot n0 n1 c hop hstk htmp hget hslot hc
  obtain ⟨op, stack?, mem, d⟩ := s
  simp only at hop hstk hc
  subst hop hstk
  simp only [scanStep, drainTmp_of_none htmp]
  cases h0 : alLookup st.hashed n0 with
  | some p =>
    obtain ⟨v0, v1⟩ := p
    simp [sloadNested, hget, hslot, h0, hc, Except.map]
  | none =>
    cases h1 : alLookup st.hashed n1 with
    | some p =>
      obtain ⟨v0, v1⟩ := p
      simp [sloadNested, hget, hslot, h0, h1, hc, Except.map]
    | none =>
      simp [sloadNested, hget, hslot, h0, h1, Except.map]

/-- Witness for C2's amended claim at a concrete state and step. -/
theorem C2_amended_nested_sload_witness :
    scanStep sloadNested c2WitState c2WitStep =
      .ok (c2WitState, some (c2Token, c2a0, c2a1, c2n1, c2slot)) := by
  have h := C2_amended_nested_sload c2WitState c2WitStep [c2slot] c2slot c2n0 c2n1
    c2Token rfl rfl rfl (by decide) (by decide) (by decide)
  rw [h]
  rfl

/-! ### C3 -/

theorem balanceFromTuples_eq_spec (token u : Bytes) :
    ∀ ts : List Tuple4, (∀ t ∈ ts, (t.2.1).length = 32 ∧ (t.2.2.1).length = 32) →
      balanceFromTuples token u ts = .ok (locateBalanceSpec token u ts) := by
  intro ts
  induction ts with
  | nil => intro _; rfl
  | cons t ts ih =>
    obtain ⟨c, v0, v1, sl⟩ := t
    intro hlen
    have h0 := hlen _ (List.mem_cons_self _ _)
    have hts := fun t ht => hlen t (List.mem_cons_of_mem _ ht)
    simp only at h0
    by_cases hc : c = token
    · subst hc
      by_cases h0u : v0 = u
      · simp [balanceFromTuples, locateBalanceSpec, h0u, mkMappingSlot, h0.2, Except.map]
      · by_cases h1u : v1 = u
        · simp [balanceFromTuples, locateBalanceSpec, h0u, h1u, mkMappingSlot, h0.1,
            Except.map]
        · simp [balanceFromTuples, locateBalanceSpec, h0u, h1u, ih hts]
    · simp [balanceFromTuples, locateBalanceSpec, hc, ih hts]

/-- C3: under an exception-free scan whose tuples carry 32-byte operands,
`parse_balance_slot` returns exactly what the spec's `locate_balance`
describes (first matching tuple filtered to the token, Solidity iff the user
matched `v0`, `none` when no tuple matches); and on the synthetic two-step
trace it returns `MappingSlot(pad32(9), is_solidity = true)`. -/
theorem C3_parse_balance_slot_spec :
    (∀ (token user : Bytes) (traces : List Step),
      (parse_mapping_reads token traces).2 = none →
      (∀ t ∈ (parse_mapping_reads token traces).1,
        (t.2.1).length = 32 ∧ (t.2.2.1).length = 32) →
      parse_balance_slot token user traces =
        .ok (locateBalanceSpec token (rjust32 user) (parse_mapping_reads token traces).1)) ∧
    parse_balance_slot c3Token c3User c3Trace = .ok (some ⟨rjust32 [9], true⟩) := by
  constructor
  · intro token user traces herr hlen
    simp only [parse_balance_slot]
    rw [balanceFromTuples_eq_spec _ _ _ hlen]
    cases hspec : locateBalanceSpec token (rjust32 user) (parse_mapping_reads token traces).1 with
    | none => simp [herr]
    | some m => simp
  · rfl

/-- Witness for C3's general conjunct at the synthetic scenario. -/
theorem C3_parse_balance_slot_spec_witness :
    parse_balance_slot c3Token c3User c3Trace =
      .ok (locateBalanceSpec c3Token (rjust32 c3User)
        (parse_mapping_reads c3Token c3Trace).1) :=
  C3_parse_balance_slot_spec.1 c3Token c3User c3Trace (by decide) (by decide)

/-! ### C9 -/

theorem balanceFromTuples_append_skip (token u : Bytes) :
    ∀ (pre rest : List Tuple4),
      (∀ t ∈ pre, ¬(t.1 = token ∧ (t.2.1 = u ∨ t.2.2.1 = u))) →
      balanceFromTuples token u (pre ++ rest) = balanceFromTuples token u rest := by
  intro pre
  induction pre with
  | nil => intro rest _; rfl
  | cons t pre ih =>
    obtain ⟨c, v0, v1, sl⟩ := t
    intro rest hnm
    have h0 := hnm _ (List.mem_cons_self _ _)
    have hpre := fun t ht => hnm t (List.mem_cons_of_mem _ ht)
    simp only at h0
    by_cases hc : c = token
    · have hv0 : ¬(v0 = u) := fun h => h0 ⟨hc, Or.inl h⟩
      have hv1 : ¬(v1 = u) := fun h => h0 ⟨hc, Or.inr h⟩
      subst hc
      simp [balanceFromTuples, hv0, hv1, ih rest hpre]
    · simp [balanceFromTuples, hc, ih rest hpre]

/-- C9: when the first matching single-level tuple for the token has both
operands equal to the padded user, `parse_balance_slot` returns
`MappingSlot(v1, is_solidity = true)` — the Solidity interpretation wins
because the `v0` comparison is tested first. -/
theorem C9_collision_prefers_solidity :
    ∀ (token user : Bytes) (traces : List Step) (pre post : List Tuple4) (sl : Bytes),
      (parse_mapping_reads token traces).1 =
        pre ++ (token, rjust32 user, rjust32 user, sl) :: post →
      (∀ t ∈ pre, ¬(t.1 = token ∧ (t.2.1 = rjust32 user ∨ t.2.2.1 = rjust32 user))) →
      (rjust32 user).length = 32 →
      parse_balance_slot token user traces = .ok (some ⟨rjust32 user, true⟩) := by
  intro token user traces pre post sl heq hnm hlen
  simp only [parse_balance_slot]
  rw [heq, balanceFromTuples_append_skip token (rjust32 user) pre _ hnm]
  simp [balanceFromTuples, mkMappingSlot, hlen, Except.map]

/-- Witness for C9 at a concrete collision trace. -/
theorem C9_collision_prefers_solidity_witness :
    parse_balance_slot c9Token c9User c9Trace = .ok (some ⟨rjust32 c9User, true⟩) :=
  C9_collision_prefers_solidity c9Token c9User c9Trace [] [] (rjust32 [6])
    (by decide) (by decide) (by decide)

/-! ### C8 -/

theorem scanExec_iff_runScan (st : ScanState) (traces : List Step)
    (out : List Tuple4 × Option PyErr) :
    ScanExec st traces out ↔ out = runScan (scanStep sloadMapping) traces st := by
  constructor
  · intro h
    induction h with
    | nil st => rfl
    | err h => simp [runScan, h]
    | skip h hrest ih => simp [runScan, h, ih]
    | emit h hrest ih =>
      simp only [runScan, h, ← ih]
  · intro h
    subst h
    induction traces generalizing st with
    | nil => exact .nil st
    | cons s rest ih =>
      cases hs : scanStep sloadMapping st s with
      | error e =>
        simp only [runScan, hs]
        exact .err hs
      | ok pr =>
        obtain ⟨st', o⟩ := pr
        cases o with
        | none =>
          simp only [runScan, hs]
          exact .skip hs (ih st')
        | some t =>
          simp only [runScan, hs]
          exact .emit hs (ih st')

/-- C8: the single-level scan is deterministic — every execution of the
scanner loop (as a small-step relation) from the initial state over a given
step sequence produces exactly `parse_mapping_reads top traces`, so two runs
over the same step sequence yield identical tuple sequences. -/
theorem C8_scan_deterministic :
    ∀ (top : Bytes) (traces : List Step) (out : List Tuple4 × Option PyErr),
      ScanExec (initState top) traces out ↔ out = parse_mapping_reads top traces :=
  fun top traces out => scanExec_iff_runScan (initState top) traces out

/-- Witness for C8 at a concrete trace. -/
theorem C8_scan_deterministic_witness :
    ScanExec (initState c1Token) c1GoodSteps
      ([(c1Token, rjust32 [1], rjust32 [2], rjust32 [3])], none) :=
  (C8_scan_deterministic c1Token c1GoodSteps
    ([(c1Token, rjust32 [1], rjust32 [2], rjust32 [3])], none)).mpr (by decide)

/-! ### C7 -/

theorem mem_map_fst {α β : Type} (l : List (α × β)) (c : α) :
    c ∈ l.map Prod.fst ↔ ∃ m, (c, m) ∈ l := by
  constructor
  · intro h
    rw [List.mem_map] at h
    obtain ⟨⟨a, b⟩, hm, hfst⟩ := h
    simp only at hfst
    subst hfst
    exact ⟨b, hm⟩
  · rintro ⟨m, hm⟩
    exact List.mem_map.mpr ⟨(c, m), hm, rfl⟩

theorem mem_batchMatches_fst (tokens : List Bytes) (u : Bytes) (ts : List Tuple4)
    (c : Bytes) :
    c ∈ (batchMatches tokens u ts).map Prod.fst ↔
      c ∈ tokens ∧ ∃ v0 v1 sl, (c, v0, v1, sl) ∈ ts ∧ (v0 = u ∨ v1 = u) := by
  simp only [batchMatches, List.mem_map, List.mem_filter]
  constructor
  · rintro ⟨⟨c', v0, v1, sl⟩, ⟨hmem, hpred⟩, hfst⟩
    simp only at hfst
    subst hfst
    simp only [Bool.and_eq_true, Bool.or_eq_true, decide_eq_true_eq] at hpred
    exact ⟨hpred.1, v0, v1, sl, hmem, hpred.2⟩
  · rintro ⟨hck, v0, v1, sl, hmem, hor⟩
    refine ⟨(c, v0, v1, sl), ⟨hmem, ?_⟩, rfl⟩
    simp only [Bool.and_eq_true, Bool.or_eq_true, decide_eq_true_eq]
    exact ⟨hck, hor⟩

theorem mem_batchMatchesA_fst (tokens : List Bytes) (u sp : Bytes) (ts : List Tuple5)
    (c : Bytes) :
    c ∈ (batchMatchesA tokens u sp ts).map Prod.fst ↔
      c ∈ tokens ∧ ∃ v0 v1 sl, (c, v0, v1, sp, sl) ∈ ts ∧ (v0 = u ∨ v1 = u) := by
  simp only [batchMatchesA, List.mem_map, List.mem_filter]
  constructor
  · rintro ⟨⟨c', v0, v1, v2, sl⟩, ⟨hmem, hpred⟩, hfst⟩
    simp only at hfst
    subst hfst
    simp only [Bool.and_eq_true, Bool.or_eq_true, decide_eq_true_eq] at hpred
    obtain ⟨⟨hck, hsp⟩, hor⟩ := hpred
    subst hsp
    exact ⟨hck, v0, v1, sl, hmem, hor⟩
  · rintro ⟨hck, v0, v1, sl, hmem, hor⟩
    refine ⟨(c, v0, v1, sp, sl), ⟨hmem, ?_⟩, rfl⟩
    simp only [Bool.and_eq_true, Bool.or_eq_true, decide_eq_true_eq]
    exact ⟨⟨hck, by simp⟩, hor⟩

theorem batchBalanceFromTuples_keys (tokens : List Bytes) (u : Bytes) :
    ∀ (ts : List Tuple4) (acc : List (Bytes × MappingSlot)),
      (∀ t ∈ ts, (t.2.1).length = 32 ∧ (t.2.2.1).length = 32) →
      ∃ r, batchBalanceFromTuples tokens u ts acc = .ok r ∧
        r.map Prod.fst =
          ((batchMatches tokens u ts).map Prod.fst).reverse ++ acc.map Prod.fst := by
  intro ts
  induction ts with
  | nil => intro acc _; exact ⟨acc, rfl, by simp [batchMatches]⟩
  | cons t ts ih =>
    obtain ⟨c, v0, v1, sl⟩ := t
    intro acc hlen
    have h0 := hlen _ (List.mem_cons_self _ _)
    have hts := fun t ht => hlen t (List.mem_cons_of_mem _ ht)
    simp only at h0
    by_cases hc : c ∈ tokens
    · by_cases h0u : v0 = u
      · obtain ⟨r, hr, hkeys⟩ := ih ((c, ⟨v1, true⟩) :: acc) hts
        refine ⟨r, ?_, ?_⟩
        · simp only [batchBalanceFromTuples, if_pos hc, if_pos h0u]
          rw [show mkMappingSlot (.bytes v1) true = .ok ⟨v1, true⟩ from by
            simp [mkMappingSlot, h0.2]]
          exact hr
        · rw [hkeys]
          simp only [batchMatches, List.filter_cons]
          have hpred : (decide ((c, v0, v1, sl).1 ∈ tokens) &&
              (decide ((c, v0, v1, sl).2.1 = u) || decide ((c, v0, v1, sl).2.2.1 = u)))
              = true := by
            simp [hc, h0u]
          rw [hpred]
          simp [List.reverse_cons, List.append_assoc]
      · by_cases h1u : v1 = u
        · obtain ⟨r, hr, hkeys⟩ := ih ((c, ⟨v0, false⟩) :: acc) hts
          refine ⟨r, ?_, ?_⟩
          · simp only [batchBalanceFromTuples, if_pos hc, if_neg h0u, if_pos h1u]
            rw [show mkMappingSlot (.bytes v0) false = .ok ⟨v0, false⟩ from by
              simp [mkMappingSlot, h0.1]]
            exact hr
          · rw [hkeys]
            simp only [batchMatches, List.filter_cons]
            have hpred : (decide ((c, v0, v1, sl).1 ∈ tokens) &&
                (decide ((c, v0, v1, sl).2.1 = u) || decide ((c, v0, v1, sl).2.2.1 = u)))
                = true := by
              simp [hc, h1u]
            rw [hpred]
            simp [List.reverse_cons, List.append_assoc]
        · obtain ⟨r, hr, hkeys⟩ := ih acc hts
          refine ⟨r, ?_, ?_⟩
          · simp only [batchBalanceFromTuples, if_pos hc, if_neg h0u, if_neg h1u]
            exact hr
          · rw [hkeys]
            simp [batchMatches, List.filter_cons, h0u, h1u]
    · obtain ⟨r, hr, hkeys⟩ := ih acc hts
      refine ⟨r, ?_, ?_⟩
      · simp only [batchBalanceFromTuples, if_neg hc]
        exact hr
      · rw [hkeys]
        simp [batchMatches, List.filter_cons, hc]

theorem batchAllowanceFromTuples_keys (tokens : List Bytes) (u sp : Bytes) :
    ∀ (ts : List Tuple5) (acc : List (Bytes × MappingSlot)),
      (∀ t ∈ ts, (t.2.1).length = 32 ∧ (t.2.2.1).length = 32) →
      ∃ r, batchAllowanceFromTuples tokens u sp ts acc = .ok r ∧
        r.map Prod.fst =
          ((batchMatchesA tokens u sp ts).map Prod.fst).reverse ++ acc.map Prod.fst := by
  intro ts
  induction ts with
  | nil => intro acc _; exact ⟨acc, rfl, by simp [batchMatchesA]⟩
  | cons t ts ih =>
    obtain ⟨c, v0, v1, v2, sl⟩ := t
    intro acc hlen
    have h0 := hlen _ (List.mem_cons_self _ _)
    have hts := fun t ht => hlen t (List.mem_cons_of_mem _ ht)
    simp only at h0
    by_cases hc : c ∈ tokens
    · by_cases hsp : v2 = sp
      · by_cases h0u : v0 = u
        · obtain ⟨r, hr, hkeys⟩ := ih ((c, ⟨v1, true⟩) :: acc) hts
          refine ⟨r, ?_, ?_⟩
          · simp only [batchAllowanceFromTuples, if_pos hc,
              if_neg (not_not_intro hsp), if_pos h0u]
            rw [show mkMappingSlot (.bytes v1) true = .ok ⟨v1, true⟩ from by
              simp [mkMappingSlot, h0.2]]
            exact hr
          · rw [hkeys]
            simp only [batchMatchesA, List.filter_cons]
            have hpred : (decide ((c, v0, v1, v2, sl).1 ∈ tokens) &&
                decide ((c, v0, v1, v2, sl).2.2.2.1 = sp) &&
                (decide ((c, v0, v1, v2, sl).2.1 = u) ||
                  decide ((c, v0, v1, v2, sl).2.2.1 = u))) = true := by
              simp [hc, hsp, h0u]
            rw [hpred]
            simp [List.reverse_cons, List.append_assoc]
        · by_cases h1u : v1 = u
          · obtain ⟨r, hr, hkeys⟩ := ih ((c, ⟨v0, false⟩) :: acc) hts
            refine ⟨r, ?_, ?_⟩
            · simp only [batchAllowanceFromTuples, if_pos hc,
                if_neg (not_not_intro hsp), if_neg h0u, if_pos h1u]
              rw [show mkMappingSlot (.bytes v0) false = .ok ⟨v0, false⟩ from by
                simp [mkMappingSlot, h0.1]]
              exact hr
            · rw [hkeys]
              simp only [batchMatchesA, List.filter_cons]
              have hpred : (decide ((c, v0, v1, v2, sl).1 ∈ tokens) &&
                  decide ((c, v0, v1, v2, sl).2.2.2.1 = sp) &&
                  (decide ((c, v0, v1, v2, sl).2.1 = u) ||
                    decide ((c, v0, v1, v2, sl).2.2.1 = u))) = true := by
                simp [hc, hsp, h1u]
              rw [hpred]
              simp [List.reverse_cons, List.append_assoc]
          · obtain ⟨r, hr, hkeys⟩ := ih acc hts
            refine ⟨r, ?_, ?_⟩
            · simp only [batchAllowanceFromTuples, if_pos hc,
                if_neg (not_not_intro hsp), if_neg h0u, if_neg h1u]
              exact hr
            · rw [hkeys]
              simp [batchMatchesA, List.filter_cons, h0u, h1u]
      · obtain ⟨r, hr, hkeys⟩ := ih acc hts
        refine ⟨r, ?_, ?_⟩
        · simp only [batchAllowanceFromTuples, if_pos hc, if_pos hsp]
          exact hr
        · rw [hkeys]
          simp [batchMatchesA, List.filter_cons, hsp]
    · obtain ⟨r, hr, hkeys⟩ := ih acc hts
      refine ⟨r, ?_, ?_⟩
      · simp only [batchAllowanceFromTuples, if_neg hc]
        exact hr
      · rw [hkeys]
        simp [batchMatchesA, List.filter_cons, hc]

/-- C7: under an exception-free scan with 32-byte tuple operands, the batch
locators return a map with an entry for exactly those candidate contracts
having at least one matching tuple: unmatched candidates are silently
omitted, and contracts observed in the trace but outside the candidate set
never appear. -/
theorem C7_batch_locators :
    (∀ (tokens : List Bytes) (user : Bytes) (traces : List Step),
      (parse_mapping_reads (List.replicate 20 0) traces).2 = none →
      (∀ t ∈ (parse_mapping_reads (List.replicate 20 0) traces).1,
        (t.2.1).length = 32 ∧ (t.2.2.1).length = 32) →
      ∃ r, parse_batch_balance_slot tokens user traces = .ok r ∧
        ∀ c : Bytes, (∃ m, (c, m) ∈ r) ↔
          (c ∈ tokens ∧ ∃ v0 v1 sl,
            (c, v0, v1, sl) ∈ (parse_mapping_reads (List.replicate 20 0) traces).1 ∧
            (v0 = rjust32 user ∨ v1 = rjust32 user))) ∧
    (∀ (tokens : List Bytes) (user spender : Bytes) (traces : List Step),
      (parse_nested_mapping_reads (List.replicate 20 0) traces).2 = none →
      (∀ t ∈ (parse_nested_mapping_reads (List.replicate 20 0) traces).1,
        (t.2.1).length = 32 ∧ (t.2.2.1).length = 32) →
      ∃ r, parse_batch_allowance_slot tokens user spender traces = .ok r ∧
        ∀ c : Bytes, (∃ m, (c, m) ∈ r) ↔
          (c ∈ tokens ∧ ∃ v0 v1 sl,
            (c, v0, v1, rjust32 spender, sl) ∈
              (parse_nested_mapping_reads (List.replicate 20 0) traces).1 ∧
            (v0 = rjust32 user ∨ v1 = rjust32 user))) := by
  constructor
  · intro tokens user traces herr hlen
    obtain ⟨r, hr, hkeys⟩ := batchBalanceFromTuples_keys tokens (rjust32 user) _ [] hlen
    refine ⟨r, ?_, ?_⟩
    · simp only [parse_batch_balance_slot]
      rw [hr, herr]
    · intro c
      rw [← mem_map_fst, hkeys]
      simp only [List.map_nil, List.append_nil, List.mem_reverse]
      exact mem_batchMatches_fst tokens (rjust32 user) _ c
  · intro tokens user spender traces herr hlen
    obtain ⟨r, hr, hkeys⟩ :=
      batchAllowanceFromTuples_keys tokens (rjust32 user) (rjust32 spender) _ [] hlen
    refine ⟨r, ?_, ?_⟩
    · simp only [parse_batch_allowance_slot]
      rw [hr, herr]
    · intro c
      rw [← mem_map_fst, hkeys]
      simp only [List.map_nil, List.append_nil, List.mem_reverse]
      exact mem_batchMatchesA_fst tokens (rjust32 user) (rjust32 spender) _ c

/-- Witness for C7 at the concrete batch scenarios over contracts A, B and
the non-candidate C. -/
theorem C7_batch_locators_witness :
    (∃ r, parse_batch_balance_slot [c7A, c7B] c7User c7Trace = .ok r ∧
      ∀ c : Bytes, (∃ m, (c, m) ∈ r) ↔
        (c ∈ [c7A, c7B] ∧ ∃ v0 v1 sl,
          (c, v0, v1, sl) ∈ (parse_mapping_reads (List.replicate 20 0) c7Trace).1 ∧
          (v0 = rjust32 c7User ∨ v1 = rjust32 c7User))) ∧
    (∃ r, parse_batch_allowance_slot [c7A, c7B] c7User c7Spender c7NTrace = .ok r ∧
      ∀ c : Bytes, (∃ m, (c, m) ∈ r) ↔
        (c ∈ [c7A, c7B] ∧ ∃ v0 v1 sl,
          (c, v0, v1, rjust32 c7Spender, sl) ∈
            (parse_nested_mapping_reads (List.replicate 20 0) c7NTrace).1 ∧
          (v0 = rjust32 c7User ∨ v1 = rjust32 c7User))) :=
  ⟨C7_batch_locators.1 [c7A, c7B] c7User c7Trace (by decide) (by decide),
   C7_batch_locators.2 [c7A, c7B] c7User c7Spender c7NTrace (by decide) (by decide)⟩

end EthContract
